import Mathlib

/-!
Verification of the podman fleet-controller script (`manage_podman.py`).

The script shells out to the container runtime and minimally parses the
results.  We embed it shallowly: the runtime is a record of the outputs the
external calls would produce, each operation becomes a pure function of that
record, and the sequence of external calls an operation issues is made
explicit as a list of `Call` values.  Python string primitives used by the
script (`str.split("\n")`, `str.strip()`) are modelled directly on the
character list underlying a `String`.
-/

namespace ManagePodman

/-- Process-wide constant: image name (`IMAGE_NAME = "ubuntu-ssh"`). -/
def IMAGE_NAME : String := "ubuntu-ssh"

/-- Process-wide constant: test username (`USER = "test_user"`). -/
def USER : String := "test_user"

/-- Process-wide constant: test password (`PASSWD = "1234"`). -/
def PASSWD : String := "1234"

/-- Decoded output of one external-process invocation
(`subprocess.run(..., capture_output=True)`): captured stdout and stderr. -/
structure ExecResult where
  stdout : String
  stderr : String
deriving DecidableEq, Repr

/-- The external container runtime, modelled as the outputs each call shape
would produce.  `psOut` is the result of `podman ps --format {{.Names}}`;
`inspectOut name` the result of `podman inspect --format ... name`.  The
outputs of `run`, `stop` and `build` are never inspected by the script but
are part of the environment (a failure there must not change behaviour). -/
structure Runtime where
  psOut : ExecResult
  inspectOut : String → ExecResult
  runOut : Nat → ExecResult
  stopOut : String → ExecResult
  buildOut : ExecResult

/-- One external call issued by the controller, with the arguments the
script passes. -/
inductive Call where
  | ps : Call
  | inspect (name : String) : Call
  | build (image : String) : Call
  | run (image : String) : Call
  | stop (name : String) : Call
deriving DecidableEq, Repr

/-- Python's `s.split("\n")` on the underlying character list: splits at every
newline; the empty string yields `[[]]`, a trailing newline yields a trailing
empty segment. -/
def pySplitNl : List Char → List (List Char)
  | [] => [[]]
  | c :: cs =>
    let r := pySplitNl cs
    if c = '\n' then [] :: r
    else
      match r with
      | [] => [[c]]
      | h :: t => (c :: h) :: t

/-- Python's `s.split("\n")` at the `String` level. -/
def pySplit (s : String) : List String :=
  (pySplitNl s.data).map String.mk

/-- Characters removed by Python's `str.strip()` (ASCII whitespace). -/
def isPySpace (c : Char) : Bool :=
  c = ' ' || c = '\t' || c = '\n' || c = '\r' || c = '\x0b' || c = '\x0c'

/-- Python's `s.strip()`: drop whitespace from both ends. -/
def pyStrip (s : String) : String :=
  String.mk (((s.data.dropWhile isPySpace).reverse.dropWhile isPySpace).reverse)

/-- `_get_all_running_container_names`: run `podman ps --format {{.Names}}`;
if stderr is non-empty, log and return `[]`; otherwise return
`stdout.decode("utf-8").split("\n")[:-1]`. -/
def _get_all_running_container_names (rt : Runtime) : List String :=
  if rt.psOut.stderr ≠ "" then []
  else (pySplit rt.psOut.stdout).dropLast

/-- `_get_container_ip_address`: run `podman inspect --format ... name`; if
stderr is non-empty, log and return `"0.0.0.0"`; otherwise return the decoded
stdout unmodified. -/
def _get_container_ip_address (rt : Runtime) (name : String) : String :=
  if (rt.inspectOut name).stderr ≠ "" then "0.0.0.0"
  else (rt.inspectOut name).stdout

/-- One record logged by `print_podman_info` for a running container:
`"Container `%s` - IP: `%s`, USER: `%s`, PASSWD: `%s`"` with the ip passed
through `ip.strip()`. -/
structure InfoRecord where
  name : String
  ip : String
  user : String
  passwd : String
deriving DecidableEq, Repr

/-- The `for container_name in containers:` loop body of `print_podman_info`:
fetch the ip of each name and emit one record with the stripped ip and the
constant credentials. -/
def infoLoop (rt : Runtime) : List String → List InfoRecord
  | [] => []
  | n :: rest =>
    { name := n
      ip := pyStrip (_get_container_ip_address rt n)
      user := USER
      passwd := PASSWD } :: infoLoop rt rest

/-- `print_podman_info`: fetch the running container names; if the list is
empty log a warning and return, otherwise emit one info record per name in
listing order. -/
def print_podman_info (rt : Runtime) : List InfoRecord :=
  infoLoop rt (_get_all_running_container_names rt)

/-- The external calls `print_podman_info` issues per name in its loop
(one inspect per container). -/
def infoCallsLoop : List String → List Call
  | [] => []
  | n :: rest => Call.inspect n :: infoCallsLoop rest

/-- The external calls issued by `print_podman_info`: one `ps` (inside
`_get_all_running_container_names`), then one `inspect` per name. -/
def print_podman_info_calls (rt : Runtime) : List Call :=
  Call.ps :: infoCallsLoop (_get_all_running_container_names rt)

/-- The `for _ in range(containers):` loop of `start_podman_containers`:
each iteration unconditionally issues one `podman run -dt IMAGE_NAME`. -/
def startLoop : Nat → List Call
  | 0 => []
  | k + 1 => Call.run IMAGE_NAME :: startLoop k

/-- `start_podman_containers(containers)`: the external calls it issues.
`containers` is an `int` (argparse `type=int`); `range(n)` is empty for
`n ≤ 0`. -/
def start_podman_containers (rt : Runtime) (containers : Int) : List Call :=
  startLoop containers.toNat

/-- The `for container_name in containers:` loop of `stop_podman_containers`:
one `podman stop name` per name, in order. -/
def stopLoop : List String → List Call
  | [] => []
  | n :: rest => Call.stop n :: stopLoop rest

/-- `stop_podman_containers`: fetch the running container names (one `ps`
call), then issue one `stop` call per name in listing order. -/
def stop_podman_containers (rt : Runtime) : List Call :=
  Call.ps :: stopLoop (_get_all_running_container_names rt)

/-- `build_podman_image`: issues one `podman build -t IMAGE_NAME -f ...`
call; its output is not inspected. -/
def build_podman_image : List Call :=
  [Call.build IMAGE_NAME]

/-- The parsed top-level command: `start [--build] [--containers N]`,
`stop`, or `info`. -/
inductive Command where
  | start (buildFlag : Bool) (containers : Int) : Command
  | stop : Command
  | info : Command
deriving DecidableEq, Repr

/-- `main`: dispatch on the command (`match namespace.command`), then always
call `print_podman_info()` and `return 0`.  The result is the full trace of
external calls together with the exit code. -/
def main (rt : Runtime) (cmd : Command) : List Call × Int :=
  ((match cmd with
    | Command.start b n =>
        (if b then build_podman_image else []) ++ start_podman_containers rt n
    | Command.stop => stop_podman_containers rt
    | Command.info => []) ++ print_podman_info_calls rt, 0)

/-! Basic lemmas about the Python `split("\n")` model. -/

theorem pySplitNl_ne_nil (cs : List Char) : pySplitNl cs ≠ [] := by
  induction cs with
  | nil => simp [pySplitNl]
  | cons c cs ih =>
    simp only [pySplitNl]
    by_cases hc : c = '\n'
    · simp [hc]
    · simp only [hc, if_false]
      cases pySplitNl cs with
      | nil => simp
      | cons h t => simp

theorem pySplitNl_no_nl (n : List Char) (hn : '\n' ∉ n) : pySplitNl n = [n] := by
  induction n with
  | nil => rfl
  | cons c cs ih =>
    have hc : c ≠ '\n' := fun h => hn (h ▸ List.mem_cons_self c cs)
    have hcs : '\n' ∉ cs := fun h => hn (List.mem_cons_of_mem c h)
    simp only [pySplitNl, hc, if_false]
    rw [ih hcs]

theorem pySplitNl_sep (n rest : List Char) (hn : '\n' ∉ n) :
    pySplitNl (n ++ '\n' :: rest) = n :: pySplitNl rest := by
  induction n with
  | nil => simp [pySplitNl]
  | cons c cs ih =>
    have hc : c ≠ '\n' := fun h => hn (h ▸ List.mem_cons_self c cs)
    have hcs : '\n' ∉ cs := fun h => hn (List.mem_cons_of_mem c h)
    simp only [List.cons_append, pySplitNl, hc, if_false, List.append_eq]
    rw [ih hcs]

theorem pySplitNl_terminated (names : List (List Char))
    (h : ∀ n ∈ names, '\n' ∉ n) :
    pySplitNl (names.foldr (fun n acc => n ++ '\n' :: acc) []) =
      names ++ [[]] := by
  induction names with
  | nil => rfl
  | cons n rest ih =>
    have hn : '\n' ∉ n := h n (List.mem_cons_self n rest)
    have hrest : ∀ m ∈ rest, '\n' ∉ m := fun m hm => h m (List.mem_cons_of_mem n hm)
    simp only [List.foldr_cons]
    rw [pySplitNl_sep _ _ hn, ih hrest]
    rfl

theorem pySplitNl_intercalate (names : List (List Char))
    (hne : names ≠ [])
    (h : ∀ n ∈ names, '\n' ∉ n) :
    pySplitNl (List.intercalate ['\n'] names) = names := by
  induction names with
  | nil => exact absurd rfl hne
  | cons n rest ih =>
    have hn : '\n' ∉ n := h n (List.mem_cons_self n rest)
    have hrest : ∀ m ∈ rest, '\n' ∉ m := fun m hm => h m (List.mem_cons_of_mem n hm)
    cases rest with
    | nil =>
      simp only [List.intercalate]
      simpa using pySplitNl_no_nl n hn
    | cons m rest₂ =>
      have hstep : List.intercalate ['\n'] (n :: m :: rest₂) =
          n ++ '\n' :: List.intercalate ['\n'] (m :: rest₂) := by
        simp [List.intercalate, List.intersperse]
      rw [hstep, pySplitNl_sep _ _ hn, ih (by simp) hrest]

/-- Predicate selecting `stop` calls in a trace. -/
def Call.isStop : Call → Bool
  | Call.stop _ => true
  | _ => false

theorem stopLoop_eq_map (l : List String) : stopLoop l = l.map Call.stop := by
  induction l with
  | nil => rfl
  | cons n rest ih => simp [stopLoop, ih]

theorem filter_isStop_map (l : List String) :
    (l.map Call.stop).filter Call.isStop = l.map Call.stop := by
  induction l with
  | nil => rfl
  | cons n rest ih => simp [Call.isStop, ih]

theorem startLoop_eq_replicate (n : Nat) :
    startLoop n = List.replicate n (Call.run IMAGE_NAME) := by
  induction n with
  | zero => rfl
  | succ k ih => simp [startLoop, ih, List.replicate_succ]

theorem infoLoop_ip (rt : Runtime) (l : List String) :
    ∀ r ∈ infoLoop rt l, r.ip = pyStrip (_get_container_ip_address rt r.name) := by
  induction l with
  | nil => intro r hr; cases hr
  | cons n rest ih =>
    intro r hr
    rcases List.mem_cons.mp hr with h | h
    · subst h; rfl
    · exact ih r h

theorem _get_container_ip_address_congr (rt₁ rt₂ : Runtime) (name : String)
    (h : rt₁.inspectOut name = rt₂.inspectOut name) :
    _get_container_ip_address rt₁ name = _get_container_ip_address rt₂ name := by
  unfold _get_container_ip_address
  rw [h]

theorem infoLoop_congr (rt₁ rt₂ : Runtime)
    (h : ∀ n, rt₁.inspectOut n = rt₂.inspectOut n) (l : List String) :
    infoLoop rt₁ l = infoLoop rt₂ l := by
  induction l with
  | nil => rfl
  | cons n rest ih =>
    simp only [infoLoop, ih]
    rw [_get_container_ip_address_congr rt₁ rt₂ n (h n)]

/-! Concrete runtime environments used to instantiate the theorems. -/

/-- A successful external call with empty output. -/
def okOut : ExecResult := { stdout := "", stderr := "" }

/-- Runtime whose inspect call succeeds with a trailing-newline ip. -/
def rtInspectNl : Runtime :=
  { psOut := { stdout := "c1\n", stderr := "" }
    inspectOut := fun _ => { stdout := "10.88.0.10\n", stderr := "" }
    runOut := fun _ => okOut
    stopOut := fun _ => okOut
    buildOut := okOut }

/-- Runtime whose inspect call fails with a non-empty error stream. -/
def rtInspectErr : Runtime :=
  { psOut := { stdout := "c1\n", stderr := "" }
    inspectOut := fun _ => { stdout := "", stderr := "error: no such container" }
    runOut := fun _ => okOut
    stopOut := fun _ => okOut
    buildOut := okOut }

/-- Runtime whose ps call fails with a non-empty error stream. -/
def rtPsErr : Runtime :=
  { psOut := { stdout := "", stderr := "cannot connect to podman" }
    inspectOut := fun _ => okOut
    runOut := fun _ => okOut
    stopOut := fun _ => okOut
    buildOut := okOut }

/-- Runtime with no running containers (ps succeeds with empty output). -/
def rtNoContainers : Runtime :=
  { psOut := { stdout := "", stderr := "" }
    inspectOut := fun _ => okOut
    runOut := fun _ => okOut
    stopOut := fun _ => okOut
    buildOut := okOut }

/-- Runtime listing two containers with the usual trailing newline. -/
def rtTwoNames : Runtime :=
  { psOut := { stdout := "alpha\nbeta\n", stderr := "" }
    inspectOut := fun _ => { stdout := "10.88.0.2\n", stderr := "" }
    runOut := fun _ => okOut
    stopOut := fun _ => okOut
    buildOut := okOut }

/-- Runtime whose ps output lacks the trailing newline. -/
def rtNoTrailingNl : Runtime :=
  { psOut := { stdout := "alpha\nbeta", stderr := "" }
    inspectOut := fun _ => { stdout := "10.88.0.2\n", stderr := "" }
    runOut := fun _ => okOut
    stopOut := fun _ => okOut
    buildOut := okOut }

/-- First of two runtimes that agree on ps and inspect outputs. -/
def rtA : Runtime :=
  { psOut := { stdout := "alpha\n", stderr := "" }
    inspectOut := fun _ => { stdout := "10.88.0.7\n", stderr := "" }
    runOut := fun _ => okOut
    stopOut := fun _ => okOut
    buildOut := okOut }

/-- Second runtime: same ps and inspect outputs as `rtA`, but a different
build output, so the two environments are not identical. -/
def rtB : Runtime :=
  { rtA with buildOut := { stdout := "built", stderr := "" } }

/-! Claim theorems. -/

/-- C1 (counterexample): the claim that `_get_container_ip_address` always
returns a trimmed string is false.  With a runtime whose inspect call
succeeds and, as usual, ends its output with a newline, the function returns
the raw decoded stdout `"10.88.0.10\n"`, which differs from its stripped
form. -/
theorem c1_untrimmed_counterexample :
    _get_container_ip_address rtInspectNl "c1" = "10.88.0.10\n" ∧
    _get_container_ip_address rtInspectNl "c1" ≠
      pyStrip (_get_container_ip_address rtInspectNl "c1") := by
  constructor
  · rfl
  · decide

/-- C1 (amended): on error `_get_container_ip_address` returns exactly
`"0.0.0.0"`; on success it returns the runtime's raw decoded stdout
unmodified (possibly carrying trailing whitespace); trimming happens at the
display site: every record emitted by `print_podman_info` carries the
stripped address of its container. -/
theorem c1_trim_before_display (rt : Runtime) (name : String) :
    ((rt.inspectOut name).stderr ≠ "" →
      _get_container_ip_address rt name = "0.0.0.0") ∧
    ((rt.inspectOut name).stderr = "" →
      _get_container_ip_address rt name = (rt.inspectOut name).stdout) ∧
    (∀ r ∈ print_podman_info rt,
      r.ip = pyStrip (_get_container_ip_address rt r.name)) := by
  refine ⟨fun h => ?_, fun h => ?_, ?_⟩
  · simp [_get_container_ip_address, h]
  · simp [_get_container_ip_address, h]
  · exact infoLoop_ip rt (_get_all_running_container_names rt)

/-- C1 (witness): the amended claim instantiated at a concrete runtime whose
inspect output carries a trailing newline. -/
theorem c1_trim_before_display_witness :
    _get_container_ip_address rtInspectNl "c1" = "10.88.0.10\n" ∧
    ∀ r ∈ print_podman_info rtInspectNl,
      r.ip = pyStrip (_get_container_ip_address rtInspectNl r.name) := by
  refine ⟨?_, (c1_trim_before_display rtInspectNl "c1").2.2⟩
  exact ((c1_trim_before_display rtInspectNl "c1").2.1 (by decide)).trans rfl

/-- C2: whenever the inspect call produces a non-empty error stream,
`_get_container_ip_address` returns exactly the literal `"0.0.0.0"` (and,
being a total function, never raises). -/
theorem c2_error_returns_sentinel (rt : Runtime) (name : String)
    (h : (rt.inspectOut name).stderr ≠ "") :
    _get_container_ip_address rt name = "0.0.0.0" := by
  simp [_get_container_ip_address, h]

/-- C2 (witness): the sentinel is returned for a concrete failing runtime. -/
theorem c2_error_returns_sentinel_witness :
    _get_container_ip_address rtInspectErr "c1" = "0.0.0.0" :=
  c2_error_returns_sentinel rtInspectErr "c1" (by decide)

/-- C3: whenever the ps call produces a non-empty error stream,
`_get_all_running_container_names` returns the empty list, the same value
callers observe when the runtime has zero containers. -/
theorem c3_error_returns_empty (rt : Runtime) (h : rt.psOut.stderr ≠ "") :
    _get_all_running_container_names rt = [] := by
  simp [_get_all_running_container_names, h]

/-- C3 (witness): the empty list is returned for a concrete failing runtime,
and it coincides with the result for a runtime with zero containers. -/
theorem c3_error_returns_empty_witness :
    _get_all_running_container_names rtPsErr = [] ∧
    _get_all_running_container_names rtPsErr =
      _get_all_running_container_names rtNoContainers := by
  refine ⟨c3_error_returns_empty rtPsErr (by decide), ?_⟩
  exact (c3_error_returns_empty rtPsErr (by decide)).trans (by decide)

/-- C4: `start_podman_containers` issues exactly `count` run calls for every
non-negative count — the trace is `count` copies of the run call, `count = 0`
gives zero calls, `count = 3` gives exactly 3 — and the trace does not depend
on the runtime's outcomes, so a failing call never prevents the remaining
iterations. -/
theorem c4_start_issues_count_runs (rt rt₂ : Runtime) (n : Nat) :
    start_podman_containers rt (n : Int) =
      List.replicate n (Call.run IMAGE_NAME) ∧
    (start_podman_containers rt (n : Int)).length = n ∧
    start_podman_containers rt 0 = [] ∧
    (start_podman_containers rt 3).length = 3 ∧
    start_podman_containers rt (n : Int) = start_podman_containers rt₂ (n : Int) := by
  refine ⟨?_, ?_, rfl, rfl, rfl⟩
  · simp [start_podman_containers, startLoop_eq_replicate]
  · simp [start_podman_containers, startLoop_eq_replicate]

/-- C5: `stop_podman_containers` issues exactly one stop call per name
returned by `_get_all_running_container_names`, in listing order (after the
single ps call), and issues zero stop calls when that list is empty. -/
theorem c5_stop_per_name_in_order (rt : Runtime) :
    stop_podman_containers rt =
      Call.ps :: (_get_all_running_container_names rt).map Call.stop ∧
    (stop_podman_containers rt).filter Call.isStop =
      (_get_all_running_container_names rt).map Call.stop ∧
    (_get_all_running_container_names rt = [] →
      stop_podman_containers rt = [Call.ps]) := by
  refine ⟨?_, ?_, fun h => ?_⟩
  · simp [stop_podman_containers, stopLoop_eq_map]
  · simp [stop_podman_containers, stopLoop_eq_map, Call.isStop, filter_isStop_map]
  · simp [stop_podman_containers, h, stopLoop]

/-- C5 (witness): zero stop calls are issued for a runtime with zero
containers. -/
theorem c5_stop_per_name_in_order_witness :
    stop_podman_containers rtNoContainers = [Call.ps] :=
  (c5_stop_per_name_in_order rtNoContainers).2.2 (by decide)

/-- C6: the dispatch in `main` ends every command with the calls of
`print_podman_info`: `start` runs the optional build, then the run calls,
then the info calls; `stop` runs the stop calls then the info calls; `info`
runs the info calls alone. -/
theorem c6_dispatch_ends_with_info (rt : Runtime) (b : Bool) (n : Int) :
    (main rt (Command.start b n)).1 =
      (if b then build_podman_image else []) ++
        start_podman_containers rt n ++ print_podman_info_calls rt ∧
    (main rt Command.stop).1 =
      stop_podman_containers rt ++ print_podman_info_calls rt ∧
    (main rt Command.info).1 = print_podman_info_calls rt ∧
    ∀ cmd : Command, ∃ pre : List Call,
      (main rt cmd).1 = pre ++ print_podman_info_calls rt := by
  refine ⟨rfl, rfl, rfl, fun cmd => ?_⟩
  cases cmd with
  | start b₂ n₂ => exact ⟨_, rfl⟩
  | stop => exact ⟨_, rfl⟩
  | info => exact ⟨_, rfl⟩

/-- C7: for every command and every runtime behaviour, `main` reaches its
end and returns exit code 0. -/
theorem c7_exit_code_zero (rt : Runtime) (cmd : Command) :
    (main rt cmd).2 = 0 := rfl

/-- C8: when the ps call succeeds and its stdout is the newline-terminated
concatenation of names (none containing a newline),
`_get_all_running_container_names` returns exactly those names in order,
with no empty final element. -/
theorem c8_newline_terminated_names (rt : Runtime) (names : List (List Char))
    (hnl : ∀ n ∈ names, '\n' ∉ n)
    (herr : rt.psOut.stderr = "")
    (hout : rt.psOut.stdout.data =
      names.foldr (fun n acc => n ++ '\n' :: acc) []) :
    _get_all_running_container_names rt = names.map String.mk := by
  unfold _get_all_running_container_names pySplit
  rw [if_neg (by simp [herr]), hout, pySplitNl_terminated names hnl,
    List.map_append]
  simp

/-- C8 (witness): the parse of the concrete output `"alpha\nbeta\n"`. -/
theorem c8_newline_terminated_names_witness :
    _get_all_running_container_names rtTwoNames = ["alpha", "beta"] := by
  have h := c8_newline_terminated_names rtTwoNames
      [['a', 'l', 'p', 'h', 'a'], ['b', 'e', 't', 'a']]
      (by decide) rfl (by decide)
  exact h

/-- C9: `print_podman_info` is a function of the runtime's ps and inspect
outputs only, so two invocations against runtimes with identical listing and
inspect results produce identical report sequences. -/
theorem c9_info_deterministic (rt₁ rt₂ : Runtime)
    (hps : rt₁.psOut = rt₂.psOut)
    (hins : ∀ n, rt₁.inspectOut n = rt₂.inspectOut n) :
    print_podman_info rt₁ = print_podman_info rt₂ := by
  have hnames : _get_all_running_container_names rt₁ =
      _get_all_running_container_names rt₂ := by
    unfold _get_all_running_container_names
    rw [hps]
  unfold print_podman_info
  rw [hnames, infoLoop_congr rt₁ rt₂ hins]

/-- C9 (witness): two distinct runtimes agreeing on ps and inspect outputs
yield the same report. -/
theorem c9_info_deterministic_witness :
    print_podman_info rtA = print_podman_info rtB :=
  c9_info_deterministic rtA rtB rfl (fun _ => rfl)

/-- C10: when the ps call succeeds but stdout is a newline-separated list of
names with no trailing newline, `_get_all_running_container_names` silently
drops the final name — the result is the `dropLast` of the names and has one
fewer element — and for completely empty stdout the result is empty. -/
theorem c10_truncates_last_segment (rt : Runtime)
    (herr : rt.psOut.stderr = "") :
    (∀ names : List (List Char), names ≠ [] → (∀ n ∈ names, '\n' ∉ n) →
      rt.psOut.stdout.data = List.intercalate ['\n'] names →
      _get_all_running_container_names rt = names.dropLast.map String.mk ∧
      (_get_all_running_container_names rt).length + 1 = names.length) ∧
    (rt.psOut.stdout = "" → _get_all_running_container_names rt = []) := by
  constructor
  · intro names hne hnl hout
    have hmain : _get_all_running_container_names rt =
        names.dropLast.map String.mk := by
      unfold _get_all_running_container_names pySplit
      rw [if_neg (by simp [herr]), hout,
        pySplitNl_intercalate names hne hnl,
        ← List.map_dropLast]
    refine ⟨hmain, ?_⟩
    rw [hmain, List.length_map, List.length_dropLast]
    have hpos := List.length_pos.mpr hne
    omega
  · intro h
    unfold _get_all_running_container_names pySplit
    rw [if_neg (by simp [herr]), h]
    rfl

/-- C10 (witness): `"alpha\nbeta"` (no trailing newline) parses to
`["alpha"]`, dropping the final name; empty stdout parses to `[]`. -/
theorem c10_truncates_last_segment_witness :
    _get_all_running_container_names rtNoTrailingNl = ["alpha"] ∧
    _get_all_running_container_names rtNoContainers = [] := by
  constructor
  · have h := (c10_truncates_last_segment rtNoTrailingNl rfl).1
        [['a', 'l', 'p', 'h', 'a'], ['b', 'e', 't', 'a']]
        (by decide) (by decide) (by decide)
    exact h.1
  · exact (c10_truncates_last_segment rtNoContainers rfl).2 rfl

end ManagePodman
